import Mathlib

/-!
Shallow embedding of the forge bootstrap agent (src/bootstrap.py).

The source is a single Python file.  Pure string manipulation is translated
into Lean functions on `String`; the effectful parts (EC2 tag store, security
groups, S3 fetches, subprocess exit codes, the local filesystem) are made
explicit: tag stores and security-group lists become parameters, external
process exit codes become oracle functions, filesystem effects become event
traces or explicit state, and Python runtime errors become an `Except` monad.

Python's `list(set(xs))` (the `unique` helper) has an enumeration order that
is not specified by the language, so the planner is parameterised by the
enumeration function together with the property every such enumeration
satisfies: it returns a duplicate-free list with the same members.
-/

namespace Forge

/-- Python runtime errors that the embedded fragments can raise. -/
inductive PyError where
  | typeError
  | attributeError
  | indexError
deriving DecidableEq

/-- Characters matched by the ASCII regex class backslash-w (Python 2 `str`
patterns without re.UNICODE): letters, digits and underscore. -/
def isWordChar (c : Char) : Bool :=
  c.isAlpha || c.isDigit || c == '_'

/-- Characters matched by the character class of word characters and dash,
the Project capture group of `infer_tags`. -/
def wordDash (c : Char) : Bool :=
  isWordChar c || c == '-'

/-- Match of the anchored pattern `([word-]+)-(word+)$` against the whole
suffix `t` (the attempt the regex engine makes at one start position).  A
match exists iff every character of `t` is a word character or dash, the
trailing maximal word run (the Role group) is non-empty, and a dash with a
non-empty prefix (the Project group) precedes it; greedy matching assigns the
split at the last dash. -/
def matchAt (t : List Char) : Option (List Char × List Char) :=
  if t.all wordDash then
    match t.reverse.dropWhile isWordChar with
    | [] => none
    | _ :: restA =>
      if t.reverse.takeWhile isWordChar = [] then none
      else if restA = [] then none
      else some (restA.reverse, (t.reverse.takeWhile isWordChar).reverse)
  else none

/-- Left-to-right scan of `re.search`: the match at the leftmost start
position wins. -/
def reSearch : List Char → Option (List Char × List Char)
  | [] => none
  | c :: rest =>
    match matchAt (c :: rest) with
    | some r => some r
    | none => reSearch rest

/-- Embeds `infer_tags` (src/bootstrap.py lines 98-102): searches the
security-group name for the trailing `<project>-<role>` pattern and returns
the group dictionary; when `re.search` returns `None`, `.groupdict()` raises
`AttributeError`. -/
def infer_tags (sg : String) : Except PyError (List (String × String)) :=
  match reSearch sg.data with
  | some (a, b) => .ok [("Project", String.mk a), ("Role", String.mk b)]
  | none => .error .attributeError

/-- Embeds `implicit_tags` (lines 105-107): one inferred dictionary per
security group. -/
def implicit_tags (sgs : List String) : Except PyError (List (List (String × String))) :=
  sgs.mapM infer_tags

/-- Embeds `discover` (lines 110-115).  When the trait is a resource tag the
value is returned as a one-element list.  Otherwise the code evaluates
`implicit_tags()` (a list of dictionaries) and indexes it with the trait
string; indexing a Python list with a `str` key raises `TypeError`, after any
`AttributeError` from building the inferred list. -/
def discover (tags : List (String × String)) (sgs : List String) (trait : String) :
    Except PyError (List String) :=
  match List.lookup trait tags with
  | some v => .ok [v]
  | none => (implicit_tags sgs).bind fun _ => .error .typeError

/-- Path of the project layer: `project + "/"` (line 120). -/
def project_path (p : String) : String := p ++ "/"

/-- Paths of the role layers: `project_path() + role + "/"` per role
(lines 123-125). -/
def role_paths (p : String) (roles : List String) : List String :=
  roles.map fun r => project_path p ++ r ++ "/"

/-- Stable insertion of a string into a list sorted by ascending length,
placed before the first entry that is not strictly shorter. -/
def insortLen (x : String) : List String → List String
  | [] => [x]
  | y :: ys => if y.length < x.length then y :: insortLen x ys else x :: y :: ys

/-- Stable sort by ascending string length.  Python's `sorted(_, key=len)` is
a stable sort by length, so it agrees with stable insertion sort. -/
def sortByLen : List String → List String
  | [] => []
  | x :: xs => insortLen x (sortByLen xs)

/-- An enumeration function standing for `list(set(_))`: the order in which
a Python set enumerates its members is not specified by the language. -/
def SetEnum : Type := List String → List String

/-- What every `list(set(_))` enumeration satisfies: the result is
duplicate-free and has exactly the members of the input. -/
def ValidSetEnum (e : SetEnum) : Prop :=
  ∀ xs, (e xs).Nodup ∧ ∀ a, a ∈ e xs ↔ a ∈ xs

/-- Embeds `unique` (lines 128-130) relative to a set-enumeration order. -/
def unique (e : SetEnum) (xs : List String) : List String := e xs

/-- Embeds `applicable_playbooks` (lines 133-138) as a function of the
resolved identity: base playbook `""`, then the project path, then the role
paths, deduplicated and sorted by ascending length. -/
def applicable_playbooks (e : SetEnum) (p : String) (roles : List String) : List String :=
  sortByLen (unique e ("" :: project_path p :: role_paths p roles))

/-- One concrete valid enumeration: keep the first occurrence, in input
order. -/
def dedupEnum : SetEnum := fun xs => xs.dedup

/-- Another valid enumeration: first occurrences in reversed order. -/
def revEnum : SetEnum := fun xs => xs.dedup.reverse

/-- Embeds `project_path` (lines 118-120) with its effects explicit:
`discover('Project')[0] + '/'`; indexing an empty list raises `IndexError`. -/
def project_pathE (tags : List (String × String)) (sgs : List String) :
    Except PyError String :=
  (discover tags sgs "Project").bind fun l =>
    match l with
    | [] => .error .indexError
    | x :: _ => .ok (project_path x)

/-- Embeds `role_paths` (lines 123-125) with its effects explicit: the
iterable `discover('Role')` is evaluated first, then `project_path()` is
re-evaluated per role. -/
def role_pathsE (tags : List (String × String)) (sgs : List String) :
    Except PyError (List String) :=
  (discover tags sgs "Role").bind fun roles =>
    roles.mapM fun r => (project_pathE tags sgs).bind fun pp => .ok (pp ++ r ++ "/")

/-- Embeds `applicable_playbooks` (lines 133-138) with the tag-store effects
explicit. -/
def applicable_playbooksE (e : SetEnum) (tags : List (String × String))
    (sgs : List String) : Except PyError (List String) :=
  (project_pathE tags sgs).bind fun pp =>
    (role_pathsE tags sgs).bind fun rps =>
      .ok (sortByLen (unique e ("" :: pp :: rps)))

/-- Embeds `flat_path` (lines 141-144): every slash becomes a dash. -/
def flat_path (s : String) : String :=
  String.mk (s.data.map fun c => if c = '/' then '-' else c)

/-- Python slice `s[:-1]`: drop the last character (the empty string stays
empty). -/
def strDropLast (s : String) : String := String.mk s.data.dropLast

/-- Group-variable name used by `get_vault` (lines 155-159): the flattened
path without its last character, or `"all"` when that is empty. -/
def vault_name (pb : String) : String :=
  if strDropLast (flat_path pb) = "" then "all" else strDropLast (flat_path pb)

/-- Destination file of the vault fetch in `get_vault` (line 160). -/
def vault_file (pb : String) : String :=
  "/etc/ansible/group_vars/" ++ vault_name pb ++ ".yml"

/-- Lines appended to `/etc/ansible/hosts` by `get_vault` (lines 163-164). -/
def hosts_lines (pb : String) : List String :=
  ["\n[" ++ vault_name pb ++ "]\n", "localhost\n"]

/-- True when no dash occurs in the string. -/
def dashFree (s : String) : Bool := s.data.all fun c => !(c == '-')

/-- Membership in the layer-path language of the planner: the root path or a
string of the form `project_path p` (role paths `p/r/` are `project_path`
applied to `p ++ "/" ++ r`). -/
def IsLayerPath (s : String) : Prop := s = "" ∨ ∃ p, s = project_path p

/-- ASCII uppercase test, the regex class `[A-Z]` used by `shell_style`. -/
def isUpperA (c : Char) : Bool := 'A' ≤ c && c ≤ 'Z'

/-- ASCII lowercase-to-uppercase conversion, Python 2 `str.upper` on one
character. -/
def pyUpper (c : Char) : Char :=
  if 'a' ≤ c ∧ c ≤ 'z' then Char.ofNat (c.toNat - 32) else c

/-- Scan implementing `re.sub` with the pattern "not at start, one or more
uppercase letters" and the replacement "underscore then the match": a fresh
uppercase run gets an underscore before it, characters inside a run that is
already being consumed do not. -/
def underscoreRuns : Bool → List Char → List Char
  | _, [] => []
  | inRun, c :: rest =>
    if isUpperA c then
      if inRun then c :: underscoreRuns true rest
      else '_' :: c :: underscoreRuns true rest
    else c :: underscoreRuns false rest

/-- Embeds `shell_style` (lines 48-52): insert an underscore before every
uppercase run that does not start at position zero, then uppercase.  The
character at position zero is never the start of a match (the lookahead
refuses the string start), but a run beginning at position one still gets an
underscore. -/
def shell_style (s : String) : String :=
  match s.data with
  | [] => ""
  | c :: rest => String.mk ((c :: underscoreRuns false rest).map pyUpper)

/-- Embeds `detect` (lines 39-45): a setting present in the resource tags is
returned from there; otherwise the environment variable named by
`shell_style` is consulted.  The tag store and the process environment are
parameters. -/
def detect (tags : List (String × String)) (env : String → Option String)
    (setting : String) : Option String :=
  match List.lookup setting tags with
  | some v => some v
  | none => env (shell_style setting)

/-- Command-line switches of the orchestrator (lines 284-289). -/
structure Args where
  skip_preconfigure : Bool
  skip_core_playbook : Bool
  skip_base_playbook : Bool
  skip_download : Bool
deriving DecidableEq

/-- Observable actions of the pipeline, in program order.  External calls
(S3 copy, ansible-galaxy, ansible-playbook, apt-get, pip, chmod, ssh
keyscans) and local writes become trace events; the integer carried by
`galaxy` and `play` is the exit code the external process returned, and the
one carried by `recordStatus` is the code written to the status file. -/
inductive Event where
  | fetch (src dest : String)
  | galaxy (manifest : String) (code : Int)
  | hosts (lines : List String)
  | play (file : String) (code : Int)
  | recordStatus (file : String) (code : Int)
  | apt (pkg : String)
  | pip (pkg : String)
  | chmod (file : String) (mode : Nat)
  | knownHosts (host : String)
  | writeLocalVars (project envTier role : String)
deriving DecidableEq

/-- Staging prefix of a layer: `/tmp/` plus the flattened path (used at
lines 149, 184). -/
def staging (pb : String) : String := "/tmp/" ++ flat_path pb

/-- Status file of a layer, from `record_exit` (line 177):
`/tmp/` plus `flat_path(playbook + 'playbook' + '.status')`. -/
def record_exit_path (pb : String) : String :=
  "/tmp/" ++ flat_path (pb ++ "playbook" ++ ".status")

/-- Trace of `get_dependencies` (lines 147-152): optional manifest fetch,
then the ansible-galaxy call whose exit code is discarded.  The oracle
`galaxy` gives the exit code of the installer for a layer. -/
def get_dependenciesT (args : Args) (galaxy : String → Int) (pb : String) :
    List Event :=
  (if args.skip_download then []
   else [Event.fetch (pb ++ "dependencies.yml") (staging pb ++ "dependencies.yml")]) ++
  [Event.galaxy (staging pb ++ "dependencies.yml") (galaxy pb)]

/-- Trace of `get_vault` (lines 155-164): optional vault fetch into the
group-variables file, then the append to the inventory file. -/
def get_vaultT (args : Args) (pb : String) : List Event :=
  (if args.skip_download then []
   else [Event.fetch (pb ++ "vault.yml") (vault_file pb)]) ++
  [Event.hosts (hosts_lines pb)]

/-- The three stage prefixes of `execute` (line 185), in program order. -/
def stageHooks : List String := ["pre-", "", "post-"]

/-- Trace of `execute` (lines 182-190): for each stage in the fixed order,
an optional artifact fetch, the engine invocation, and the recording of its
exit code.  The oracle `engine` gives the exit code of `ansible-playbook`
for a layer and a stage prefix. -/
def executeT (args : Args) (engine : String → String → Int) (pb : String) :
    List Event :=
  stageHooks.flatMap fun hook =>
    (if args.skip_download then []
     else [Event.fetch (pb ++ (hook ++ "playbook.yml"))
            (staging pb ++ (hook ++ "playbook.yml"))]) ++
    [Event.play (staging pb ++ (hook ++ "playbook.yml")) (engine pb hook),
     Event.recordStatus (record_exit_path pb) (engine pb hook)]

/-- Trace of `configure_ansible` (lines 231-239). -/
def configure_ansibleT : List Event :=
  [Event.fetch "ansible.hosts" "/etc/ansible/hosts",
   Event.fetch "ansible.cfg" "/etc/ansible/ansible.cfg",
   Event.fetch "vault.key" "/etc/ansible/vault.key",
   Event.chmod "/etc/ansible/ansible.cfg" 256,
   Event.chmod "/etc/ansible/vault.key" 256,
   Event.knownHosts "github.com",
   Event.knownHosts "bitbucket.org"]

/-- Trace of `configure_environment` (lines 166-172): a root-layer
`get_vault` call, then the generated group-variables file carrying the
Project, Environment and Role tag values. -/
def configure_environmentT (args : Args) (tagProject tagEnv tagRole : String) :
    List Event :=
  get_vaultT args "" ++ [Event.writeLocalVars tagProject tagEnv tagRole]

/-- Trace of `get_credentials` (lines 252-256). -/
def get_credentialsT : List Event :=
  [Event.fetch "ssh.ed25519" "/root/.ssh/id_ed25519",
   Event.fetch "ssh.rsa" "/root/.ssh/id_rsa",
   Event.chmod "/root/.ssh/id_ed25519" 256,
   Event.chmod "/root/.ssh/id_rsa" 256]

/-- Trace of `preconfigure` (lines 259-267). -/
def preconfigureT (args : Args) (tagProject tagEnv tagRole : String) : List Event :=
  [Event.apt "libssl-dev", Event.apt "libffi-dev",
   Event.pip "ansible", Event.pip "awscli", Event.pip "boto"] ++
  configure_ansibleT ++
  configure_environmentT args tagProject tagEnv tagRole ++
  get_credentialsT ++
  [Event.fetch "bin/reforge" "/usr/local/sbin/reforge",
   Event.chmod "/usr/local/sbin/reforge" 320]

/-- Layers the orchestrator loop of `self_provision` (lines 274-281)
actually processes: the plan minus the layers excluded by the skip
switches (`not playbook` is true exactly for the root path). -/
def self_provisionLayers (e : SetEnum) (args : Args) (p : String)
    (roles : List String) : List String :=
  (applicable_playbooks e p roles).filter fun pb =>
    !((pb == "") && args.skip_core_playbook) &&
    !((pb == project_path p) && args.skip_base_playbook)

/-- Per-layer body of the orchestrator loop (lines 279-281): dependency
install, vault fetch, execution. -/
def layerT (args : Args) (galaxy : String → Int) (engine : String → String → Int)
    (pb : String) : List Event :=
  get_dependenciesT args galaxy pb ++ get_vaultT args pb ++ executeT args engine pb

/-- Trace of the orchestrator loop over all processed layers. -/
def layerLoopT (e : SetEnum) (args : Args) (galaxy : String → Int)
    (engine : String → String → Int) (p : String) (roles : List String) :
    List Event :=
  (self_provisionLayers e args p roles).flatMap (layerT args galaxy engine)

/-- Trace of `self_provision` (lines 270-281): optional preconfiguration,
then the layer loop.  The planner is taken at the resolved identity
(project `p`, role list `roles`); `tagEnv`/`tagRole` are the raw tag values
preconfiguration writes into the generated group-variables file. -/
def self_provisionT (e : SetEnum) (args : Args) (galaxy : String → Int)
    (engine : String → String → Int) (p : String) (roles : List String)
    (tagEnv tagRole : String) : List Event :=
  (if args.skip_preconfigure then [] else preconfigureT args p tagEnv tagRole) ++
  layerLoopT e args galaxy engine p roles

/-- Store of local status files: association of file path to text content,
one entry per path (a file overwrite replaces the entry). -/
abbrev RecFS : Type := List (String × String)

/-- Overwrite-or-create a file in the status-file store. -/
def setAssoc : RecFS → String → String → RecFS
  | [], p, v => [(p, v)]
  | (q, w) :: rest, p, v =>
    if q = p then (q, v) :: rest else (q, w) :: setAssoc rest p v

/-- State effect of `record_exit` (lines 175-179): writes the decimal
rendering of the exit status into the layer's status file, overwriting any
prior content. -/
def record_exitS (pb : String) (code : Int) (fs : RecFS) : RecFS :=
  setAssoc fs (record_exit_path pb) (toString code)

/-- State effect of `execute` (lines 182-190) on the status-file store: the
three stages in order, each recording its exit code as it finishes. -/
def executeS (engine : String → String → Int) (pb : String) (fs : RecFS) : RecFS :=
  stageHooks.foldl (fun acc hook => record_exitS pb (engine pb hook) acc) fs

/-- Length comparison used to state the plan-ordering property. -/
def lenLE (a b : String) : Prop := a.length ≤ b.length

/-- Projection of a trace onto engine invocations and status recordings. -/
def playsAndRecords (t : List Event) : List Event :=
  t.filter fun ev =>
    match ev with
    | .play _ _ => true
    | .recordStatus _ _ => true
    | _ => false

/-- The six play/record events one layer is expected to contribute:
pre-hook, main, post-hook, each immediately followed by the recording of
its exit code. -/
def stageSix (engine : String → String → Int) (pb : String) : List Event :=
  [Event.play (staging pb ++ "pre-playbook.yml") (engine pb "pre-"),
   Event.recordStatus (record_exit_path pb) (engine pb "pre-"),
   Event.play (staging pb ++ "playbook.yml") (engine pb ""),
   Event.recordStatus (record_exit_path pb) (engine pb ""),
   Event.play (staging pb ++ "post-playbook.yml") (engine pb "post-"),
   Event.recordStatus (record_exit_path pb) (engine pb "post-")]

/-- Projection of a trace onto inventory-file appends (the vault step). -/
def hostsEvents (t : List Event) : List Event :=
  t.filter fun ev =>
    match ev with
    | .hosts _ => true
    | _ => false

/-- Projection of a trace onto everything except the dependency-installer
calls. -/
def nonGalaxy (t : List Event) : List Event :=
  t.filter fun ev =>
    match ev with
    | .galaxy _ _ => false
    | _ => true

theorem dedupEnum_valid : ValidSetEnum dedupEnum :=
  fun xs => ⟨List.nodup_dedup xs, fun _ => List.mem_dedup⟩

theorem revEnum_valid : ValidSetEnum revEnum :=
  fun xs =>
    ⟨List.nodup_reverse.mpr (List.nodup_dedup xs),
     fun _ => by simp [revEnum, List.mem_reverse, List.mem_dedup]⟩

theorem insortLen_perm (x : String) (l : List String) :
    (insortLen x l).Perm (x :: l) := by
  induction l with
  | nil => exact List.Perm.refl _
  | cons y ys ih =>
    simp only [insortLen]
    split
    · exact (ih.cons y).trans (List.Perm.swap x y ys)
    · exact List.Perm.refl _

theorem sortByLen_perm (l : List String) : (sortByLen l).Perm l := by
  induction l with
  | nil => exact List.Perm.refl _
  | cons x xs ih =>
    exact (insortLen_perm x (sortByLen xs)).trans (ih.cons x)

theorem insortLen_sorted (x : String) (l : List String)
    (h : l.Pairwise lenLE) : (insortLen x l).Pairwise lenLE := by
  induction l with
  | nil => exact List.Pairwise.cons (by simp) List.Pairwise.nil
  | cons y ys ih =>
    simp only [insortLen]
    split
    · refine List.Pairwise.cons ?_ (ih h.tail)
      intro a ha
      have ha2 : a ∈ x :: ys := (insortLen_perm x ys).mem_iff.mp ha
      rcases List.mem_cons.mp ha2 with h1 | h2
      · subst h1; exact Nat.le_of_lt (by assumption)
      · exact List.rel_of_pairwise_cons h h2
    · refine List.Pairwise.cons ?_ h
      intro a ha
      rcases List.mem_cons.mp ha with h1 | h2
      · subst h1; exact Nat.le_of_not_lt (by assumption)
      · exact Nat.le_trans (Nat.le_of_not_lt (by assumption))
          (List.rel_of_pairwise_cons h h2)

theorem sortByLen_sorted (l : List String) : (sortByLen l).Pairwise lenLE := by
  induction l with
  | nil => exact List.Pairwise.nil
  | cons x xs ih => exact insortLen_sorted x (sortByLen xs) ih

theorem enum_perm (e : SetEnum) (he : ValidSetEnum e) {xs : List String}
    (h : xs.Nodup) : (e xs).Perm xs :=
  (List.perm_ext_iff_of_nodup (he xs).1 h).mpr (he xs).2

theorem project_path_length (p : String) :
    (project_path p).length = p.length + 1 := by
  have h1 : ("/" : String).length = 1 := rfl
  simp [project_path, String.length_append, h1]

theorem role_path_length (p r : String) :
    (project_path p ++ r ++ "/").length = p.length + r.length + 2 := by
  have h1 : ("/" : String).length = 1 := rfl
  simp [String.length_append, project_path_length, h1]
  omega

theorem length_zero_eq_empty {s : String} (h : s.length = 0) : s = "" :=
  String.ext (List.length_eq_zero.mp h)

theorem role_path_injective (p : String) :
    Function.Injective fun r => project_path p ++ r ++ "/" := by
  intro r1 r2 h
  have hd := congrArg String.data h
  simp only [String.data_append] at hd
  rw [List.append_assoc, List.append_assoc] at hd
  exact String.ext (List.append_cancel_right (List.append_cancel_left hd))

theorem mem_tail_pos (p : String) (roles : List String) :
    ∀ a ∈ project_path p :: role_paths p roles, 0 < a.length := by
  intro a ha
  rcases List.mem_cons.mp ha with h1 | h2
  · rw [h1, project_path_length]; omega
  · simp only [role_paths, List.mem_map] at h2
    rcases h2 with ⟨r, _, hr⟩
    rw [← hr, role_path_length]; omega

theorem base_nodup (p : String) (roles : List String) (h : roles.Nodup) :
    ("" :: project_path p :: role_paths p roles).Nodup := by
  refine List.Pairwise.cons ?_ (List.Pairwise.cons ?_ ?_)
  · intro a ha heq
    subst heq
    exact absurd (mem_tail_pos p roles "" ha) (by decide)
  · intro a ha heq
    simp only [role_paths, List.mem_map] at ha
    rcases ha with ⟨r, _, hr⟩
    have hlen := congrArg String.length heq
    rw [← hr, project_path_length, role_path_length] at hlen
    omega
  · exact List.Nodup.map (role_path_injective p) h

theorem plan_perm (e : SetEnum) (he : ValidSetEnum e) (p : String)
    (roles : List String) (h : roles.Nodup) :
    (applicable_playbooks e p roles).Perm
      ("" :: project_path p :: role_paths p roles) :=
  (sortByLen_perm _).trans (enum_perm e he (base_nodup p roles h))

/-- C4: for every identity whose role list holds `n` distinct role names,
each distinct from the project, `plan()` returns exactly `n + 2` entries —
root, project path, one path per role — with no duplicate path and the root
path `""` first.  Holds for every admissible `list(set(...))` enumeration
order. -/
theorem plan_count_nodup_root_first (e : SetEnum) (he : ValidSetEnum e)
    (p : String) (roles : List String) (hnd : roles.Nodup)
    (_hpr : ∀ r ∈ roles, r ≠ p) :
    (applicable_playbooks e p roles).length = roles.length + 2 ∧
    (applicable_playbooks e p roles).Nodup ∧
    (applicable_playbooks e p roles).head? = some "" := by
  have hperm := plan_perm e he p roles hnd
  refine ⟨?_, ?_, ?_⟩
  · rw [hperm.length_eq]
    simp only [List.length_cons, role_paths, List.length_map]
  · exact hperm.symm.nodup (base_nodup p roles hnd)
  · have hmem : "" ∈ applicable_playbooks e p roles :=
      hperm.mem_iff.mpr (by simp)
    have hsorted : (applicable_playbooks e p roles).Pairwise lenLE :=
      sortByLen_sorted _
    rcases hl : applicable_playbooks e p roles with _ | ⟨x, rest⟩
    · rw [hl] at hmem; simp at hmem
    · rw [hl] at hmem hsorted
      rcases List.mem_cons.mp hmem with h1 | h2
      · simp [← h1]
      · have hxle : x.length ≤ 0 := List.rel_of_pairwise_cons hsorted h2
        have hx : x = "" := length_zero_eq_empty (Nat.le_zero.mp hxle)
        simp [hx]

/-- Witness for C4 at a concrete identity: project shop, roles web and db. -/
theorem plan_count_nodup_root_first_witness :
    (["web", "db"] : List String).Nodup ∧
    (∀ r ∈ (["web", "db"] : List String), r ≠ "shop") ∧
    ((applicable_playbooks dedupEnum "shop" ["web", "db"]).length =
        (["web", "db"] : List String).length + 2 ∧
      (applicable_playbooks dedupEnum "shop" ["web", "db"]).Nodup ∧
      (applicable_playbooks dedupEnum "shop" ["web", "db"]).head? = some "") :=
  ⟨by decide, by decide,
   plan_count_nodup_root_first dedupEnum dedupEnum_valid "shop" ["web", "db"]
     (by decide) (by decide)⟩

/-- C6 (amended): for every identity and every admissible enumeration order
of `list(set(...))`, the plan is ordered by ascending path length.  The
relative order of equal-length entries is whatever order the set
enumeration produced; it is not tie-broken by role-discovery order. -/
theorem plan_sorted_by_length (e : SetEnum) (p : String) (roles : List String) :
    (applicable_playbooks e p roles).Pairwise lenLE :=
  sortByLen_sorted _

/-- C6 counterexample: `revEnum` is an admissible enumeration order for
`list(set(...))` (Python does not specify the order a set enumerates its
members), role discovery puts `shop/ab/` before `shop/cd/`, yet the plan
produced under this enumeration lists `shop/cd/` before `shop/ab/`: the
equal-length entries are not in discovery order. -/
theorem plan_tie_break_counterexample :
    ValidSetEnum revEnum ∧
    role_paths "shop" ["ab", "cd"] = ["shop/ab/", "shop/cd/"] ∧
    applicable_playbooks revEnum "shop" ["ab", "cd"] =
      ["", "shop/", "shop/cd/", "shop/ab/"] :=
  ⟨revEnum_valid, by decide, by decide⟩

/-- C1 (code bug): with no Project or Role tag and security groups
`["shop-web"]`, the inference helper itself extracts Project shop and Role
web, but `discover` then evaluates `implicit_tags()[trait]` — indexing the
list of inferred dictionaries with a string key — which raises `TypeError`,
so no plan is produced; with the tags present the very same plan the claim
expects, `["", "shop/", "shop/web/"]`, is returned. -/
theorem discover_inference_raises_typeerror :
    infer_tags "shop-web" = Except.ok [("Project", "shop"), ("Role", "web")] ∧
    discover [] ["shop-web"] "Project" = Except.error PyError.typeError ∧
    applicable_playbooksE dedupEnum [] ["shop-web"] =
      Except.error PyError.typeError ∧
    applicable_playbooksE dedupEnum
        [("Project", "shop"), ("Role", "web"), ("Environment", "prod")] [] =
      Except.ok ["", "shop/", "shop/web/"] :=
  ⟨rfl, rfl, rfl, rfl⟩

theorem subSlash_inj {a b : List Char}
    (ha : (a.all fun c => !(c == '-')) = true)
    (hb : (b.all fun c => !(c == '-')) = true)
    (h : a.map (fun c => if c = '/' then '-' else c) =
      b.map (fun c => if c = '/' then '-' else c)) : a = b := by
  induction a generalizing b with
  | nil =>
    cases b with
    | nil => rfl
    | cons d ds => simp at h
  | cons c cs ih =>
    cases b with
    | nil => simp at h
    | cons d ds =>
      simp only [List.map_cons, List.cons.injEq] at h
      simp only [List.all_cons, Bool.and_eq_true, Bool.not_eq_true',
        beq_eq_false_iff_ne] at ha hb
      rcases h with ⟨hh, ht⟩
      have hcd : c = d := by
        by_cases hc : c = '/'
        · by_cases hd2 : d = '/'
          · rw [hc, hd2]
          · rw [if_pos hc, if_neg hd2] at hh
            exact absurd hh.symm hb.1
        · by_cases hd2 : d = '/'
          · rw [if_neg hc, if_pos hd2] at hh
            exact absurd hh ha.1
          · rw [if_neg hc, if_neg hd2] at hh
            exact hh
      rw [hcd, ih ha.2 hb.2 ht]

/-- C5 (amended): the staging-path derivation is injective over dash-free
layer paths: two distinct layer paths in which no dash occurs always get
distinct staging paths. -/
theorem flat_path_injective_dashfree (s t : String) (hs : dashFree s = true)
    (ht : dashFree t = true) (hne : s ≠ t) : flat_path s ≠ flat_path t :=
  fun h => hne (String.ext (subSlash_inj hs ht (congrArg String.data h)))

/-- Witness for the amended C5 at the two concrete role-layer paths of one
plan. -/
theorem flat_path_injective_dashfree_witness :
    dashFree "shop/web/" = true ∧ dashFree "shop/db/" = true ∧
    ("shop/web/" : String) ≠ "shop/db/" ∧
    flat_path "shop/web/" ≠ flat_path "shop/db/" :=
  ⟨by decide, by decide, by decide,
   flat_path_injective_dashfree "shop/web/" "shop/db/" (by decide) (by decide)
     (by decide)⟩

/-- C5 counterexample: the distinct layer paths `a/b/` (project a, role b)
and `a-b/` (the project layer of project `a-b`; inferred project names may
contain dashes) flatten to the same staging key `a-b-`, so the derivation
is not injective over all layer paths. -/
theorem flat_path_collision :
    IsLayerPath "a/b/" ∧ IsLayerPath "a-b/" ∧ ("a/b/" : String) ≠ "a-b/" ∧
    flat_path "a/b/" = flat_path "a-b/" :=
  ⟨Or.inr ⟨"a/b", by decide⟩, Or.inr ⟨"a-b", by decide⟩, by decide, by decide⟩

/-- C2 (amended): executing a layer records every stage's exit code into the
single per-layer status file; each record overwrites the previous one, so
starting from an empty store only the post-hook's exit code remains
retrievable after the three stages. -/
theorem execute_status_last_write_wins (engine : String → String → Int)
    (pb : String) :
    executeS engine pb [] =
      [(record_exit_path pb, toString (engine pb "post-"))] := by
  simp [executeS, stageHooks, record_exitS, setAssoc]

/-- C2 counterexample: with exit codes pre-hook 1, main 2, post-hook 3 on
layer `shop/`, the status store after execution holds exactly one file,
`/tmp/shop-playbook.status`, with content "3": the pre-hook and main codes
are not retrievable from any stored file, so the three stage codes are not
recorded independently. -/
theorem execute_stage_codes_overwritten :
    executeS (fun _ hook => if hook = "pre-" then 1 else if hook = "" then 2 else 3)
        "shop/" [] = [("/tmp/shop-playbook.status", "3")] ∧
    "1" ∉ (executeS
        (fun _ hook => if hook = "pre-" then 1 else if hook = "" then 2 else 3)
        "shop/" []).map Prod.snd ∧
    "2" ∉ (executeS
        (fun _ hook => if hook = "pre-" then 1 else if hook = "" then 2 else 3)
        "shop/" []).map Prod.snd :=
  ⟨by decide, by decide, by decide⟩

theorem playsAndRecords_executeT (args : Args) (engine : String → String → Int)
    (pb : String) :
    playsAndRecords (executeT args engine pb) = stageSix engine pb := by
  cases h : args.skip_download <;>
    simp [executeT, stageHooks, playsAndRecords, stageSix, h, List.filter_append]

theorem playsAndRecords_layerT (args : Args) (galaxy : String → Int)
    (engine : String → String → Int) (pb : String) :
    playsAndRecords (layerT args galaxy engine pb) = stageSix engine pb := by
  cases h : args.skip_download <;>
    simp [layerT, get_dependenciesT, get_vaultT, executeT, stageHooks,
      playsAndRecords, stageSix, h, List.filter_append]

theorem playsAndRecords_preconfigureT (args : Args) (tp te tr : String) :
    playsAndRecords (preconfigureT args tp te tr) = [] := by
  cases h : args.skip_download <;>
    simp [preconfigureT, configure_ansibleT, configure_environmentT,
      get_vaultT, get_credentialsT, playsAndRecords, h, List.filter_append]

/-- C3: for every sequence of stage exit codes (the engine oracle is
universally quantified, so failing codes included), every execution of a
layer invokes all three stages in the fixed order pre-hook, main,
post-hook, recording each stage's code before the next stage runs; and in a
full run every non-skipped planned layer contributes exactly this six-event
block, in plan order, whatever the dependency-installer and engine exit
codes are. -/
theorem stages_never_aborted (e : SetEnum) (args : Args)
    (galaxy : String → Int) (engine : String → String → Int) (p : String)
    (roles : List String) (pb : String) (tagEnv tagRole : String) :
    playsAndRecords (executeT args engine pb) = stageSix engine pb ∧
    playsAndRecords (self_provisionT e args galaxy engine p roles tagEnv tagRole) =
      (self_provisionLayers e args p roles).flatMap (stageSix engine) := by
  refine ⟨playsAndRecords_executeT args engine pb, ?_⟩
  have hloop : playsAndRecords (layerLoopT e args galaxy engine p roles) =
      (self_provisionLayers e args p roles).flatMap (stageSix engine) := by
    rw [layerLoopT, playsAndRecords, List.filter_flatMap]
    exact List.flatMap_congr fun x _ => playsAndRecords_layerT args galaxy engine x
  have happ : ∀ s t : List Event,
      playsAndRecords (s ++ t) = playsAndRecords s ++ playsAndRecords t :=
    fun s t => List.filter_append s t
  rw [self_provisionT, happ, hloop]
  cases h : args.skip_preconfigure
  · simp [h, playsAndRecords_preconfigureT]
  · simp [h, playsAndRecords]

theorem flatMap_single {α β : Type} (l : List α) (f : α → β) :
    (l.flatMap fun x => [f x]) = l.map f := by
  induction l with
  | nil => rfl
  | cons x xs ih => simp [List.flatMap_cons, ih]

theorem nonGalaxy_layerT (args : Args) (g g' : String → Int)
    (engine : String → String → Int) (pb : String) :
    nonGalaxy (layerT args g engine pb) = nonGalaxy (layerT args g' engine pb) := by
  cases h : args.skip_download <;>
    simp [layerT, get_dependenciesT, get_vaultT, executeT, stageHooks,
      nonGalaxy, h, List.filter_append]

theorem hostsEvents_layerT (args : Args) (g : String → Int)
    (engine : String → String → Int) (pb : String) :
    hostsEvents (layerT args g engine pb) = [Event.hosts (hosts_lines pb)] := by
  cases h : args.skip_download <;>
    simp [layerT, get_dependenciesT, get_vaultT, executeT, stageHooks,
      hostsEvents, h, List.filter_append]

/-- C8: the exit code of the dependency installer never blocks the pipeline:
for any two installer oracles the traces agree on everything except the
installer calls themselves, every processed layer still gets its vault step
(inventory append), and every processed layer still gets its full
three-stage execution with recording — whatever codes the installer
returns (an absent manifest only shows up as a nonzero code, which is
covered by the quantification). -/
theorem dependency_install_never_blocks (e : SetEnum) (args : Args)
    (engine : String → String → Int) (p : String) (roles : List String)
    (tagEnv tagRole : String) (galaxy galaxy' : String → Int) :
    nonGalaxy (self_provisionT e args galaxy engine p roles tagEnv tagRole) =
      nonGalaxy (self_provisionT e args galaxy' engine p roles tagEnv tagRole) ∧
    hostsEvents (layerLoopT e args galaxy engine p roles) =
      (self_provisionLayers e args p roles).map
        (fun pb => Event.hosts (hosts_lines pb)) ∧
    playsAndRecords (layerLoopT e args galaxy engine p roles) =
      (self_provisionLayers e args p roles).flatMap (stageSix engine) := by
  refine ⟨?_, ?_, ?_⟩
  · have happ : ∀ s t : List Event,
        nonGalaxy (s ++ t) = nonGalaxy s ++ nonGalaxy t :=
      fun s t => List.filter_append s t
    rw [self_provisionT, self_provisionT, happ, happ]
    congr 1
    rw [layerLoopT, layerLoopT, nonGalaxy, List.filter_flatMap, nonGalaxy,
      List.filter_flatMap]
    exact List.flatMap_congr fun x _ => nonGalaxy_layerT args galaxy galaxy' engine x
  · rw [layerLoopT, hostsEvents, List.filter_flatMap]
    exact (List.flatMap_congr fun x _ =>
      hostsEvents_layerT args galaxy engine x).trans (flatMap_single _ _)
  · rw [layerLoopT, playsAndRecords, List.filter_flatMap]
    exact List.flatMap_congr fun x _ => playsAndRecords_layerT args galaxy engine x

/-- C7 (amended): with skip_core_playbook set, the root entry still appears
in the planner's output, but the orchestrator loop excludes exactly it
(with skip_base_playbook off), so no dependency install, vault fetch or
stage execution happens for the root layer inside the layer loop while
every other planned layer is still processed.  The original claim's
stronger reading — no root vault fetch at all — fails: unless
preconfiguration is also skipped, configure_environment performs a root
vault fetch (see the counterexample). -/
theorem skip_core_excludes_root_from_loop (e : SetEnum) (he : ValidSetEnum e)
    (p : String) (roles : List String) (args : Args)
    (h1 : args.skip_core_playbook = true) (h2 : args.skip_base_playbook = false) :
    "" ∈ applicable_playbooks e p roles ∧
    self_provisionLayers e args p roles =
      (applicable_playbooks e p roles).filter fun pb => !(pb == "") := by
  constructor
  · have hm : "" ∈ unique e ("" :: project_path p :: role_paths p roles) :=
      ((he _).2 "").mpr (List.mem_cons_self _ _)
    exact (sortByLen_perm _).mem_iff.mpr hm
  · rw [self_provisionLayers]
    apply List.filter_congr
    intro x _
    rw [h1, h2]
    simp

/-- Witness for the amended C7 at a concrete identity and switch setting. -/
theorem skip_core_excludes_root_from_loop_witness :
    (Args.mk false true false false).skip_core_playbook = true ∧
    (Args.mk false true false false).skip_base_playbook = false ∧
    ("" ∈ applicable_playbooks dedupEnum "shop" ["web"] ∧
      self_provisionLayers dedupEnum (Args.mk false true false false) "shop"
          ["web"] =
        (applicable_playbooks dedupEnum "shop" ["web"]).filter
          fun pb => !(pb == "")) :=
  ⟨rfl, rfl,
   skip_core_excludes_root_from_loop dedupEnum dedupEnum_valid "shop" ["web"]
     (Args.mk false true false false) rfl rfl⟩

/-- C7 counterexample: with skip_core_playbook set and preconfiguration not
skipped (its default), the layer loop excludes the root layer, yet the run
still performs a vault fetch for the root layer: configure_environment
inside preconfigure fetches the root vault into
/etc/ansible/group_vars/all.yml.  The claim that no vault fetch is
performed for the root layer is therefore false as stated. -/
theorem skip_core_root_vault_fetch_counterexample :
    "" ∉ self_provisionLayers dedupEnum (Args.mk false true false false)
        "shop" ["web"] ∧
    Event.fetch "vault.yml" "/etc/ansible/group_vars/all.yml" ∈
      self_provisionT dedupEnum (Args.mk false true false false) (fun _ => 0)
        (fun _ _ => 0) "shop" ["web"] "prod" "web" :=
  ⟨by decide, by decide⟩

theorem flat_data (s : String) :
    (flat_path s).data = s.data.map fun c => if c = '/' then '-' else c := rfl

theorem strDropLast_data (s : String) : (strDropLast s).data = s.data.dropLast :=
  rfl

theorem flat_project_path_data (p : String) :
    (flat_path (project_path p)).data = (flat_path p).data ++ ['-'] := by
  rw [flat_data, flat_data, project_path, String.data_append, List.map_append]
  rfl

theorem vault_name_project_path (p : String) (hp : p ≠ "") :
    vault_name (project_path p) = flat_path p := by
  have h1 : strDropLast (flat_path (project_path p)) = flat_path p :=
    String.ext
      (by rw [strDropLast_data, flat_project_path_data, List.dropLast_concat])
  have h2 : flat_path p ≠ "" := by
    intro hcon
    apply hp
    apply String.ext
    have hd := congrArg String.data hcon
    rw [flat_data] at hd
    exact List.map_eq_nil_iff.mp hd
  rw [vault_name, h1, if_neg h2]

/-- C9 (amended): the root layer uses the literal group name "all" — vault
file /etc/ansible/group_vars/all.yml and inventory group [all] — and every
layer path of the form `p ++ "/"` with `p` non-empty (which covers all
non-empty planner paths except "/") gets the flattened path with the
trailing dash removed, i.e. `flat_path p`.  The path "/" (empty project) is
the one non-empty path that also maps to "all"; see the counterexample. -/
theorem vault_naming (p : String) (hp : p ≠ "") :
    vault_name "" = "all" ∧
    vault_file "" = "/etc/ansible/group_vars/all.yml" ∧
    hosts_lines "" = ["\n[all]\n", "localhost\n"] ∧
    vault_name (project_path p) = strDropLast (flat_path (project_path p)) ∧
    vault_name (project_path p) = flat_path p := by
  refine ⟨by decide, by decide, by decide, ?_, vault_name_project_path p hp⟩
  rw [vault_name_project_path p hp]
  exact (String.ext
    (by rw [strDropLast_data, flat_project_path_data, List.dropLast_concat])).symm

/-- Witness for the amended C9 at the concrete project shop. -/
theorem vault_naming_witness :
    ("shop" : String) ≠ "" ∧
    (vault_name "" = "all" ∧
      vault_file "" = "/etc/ansible/group_vars/all.yml" ∧
      hosts_lines "" = ["\n[all]\n", "localhost\n"] ∧
      vault_name (project_path "shop") =
        strDropLast (flat_path (project_path "shop")) ∧
      vault_name (project_path "shop") = flat_path "shop") :=
  ⟨by decide, vault_naming "shop" (by decide)⟩

/-- C9 counterexample: "/" is a non-empty layer path (the project path of an
empty Project tag value); the claim's formula — slashes to dashes, trailing
dash removed — yields the empty string for it, but the code maps it to
"all". -/
theorem vault_name_slash_counterexample :
    project_path "" = "/" ∧ ("/" : String) ≠ "" ∧
    vault_name "/" = "all" ∧ strDropLast (flat_path "/") = "" ∧
    ("all" : String) ≠ "" :=
  ⟨by decide, by decide, by decide, by decide, by decide⟩

/-- C10: a setting present in the resource tags is answered from the tags
and the process environment is irrelevant (changing the environment does
not change the result); a setting absent from the tags is answered from the
environment variable named by the shell_style translation; and that
translation sends ForgeRegion to FORGE_REGION. -/
theorem detect_tags_over_env (tags : List (String × String))
    (env env2 : String → Option String) (setting v : String) :
    (List.lookup setting tags = some v →
      detect tags env setting = some v ∧
      detect tags env2 setting = detect tags env setting) ∧
    (List.lookup setting tags = none →
      detect tags env setting = env (shell_style setting)) ∧
    shell_style "ForgeRegion" = "FORGE_REGION" := by
  refine ⟨fun h => ?_, fun h => ?_, by decide⟩
  · constructor <;> simp [detect, h]
  · simp [detect, h]

/-- Witness for C10: tag present (environment ignored) and tag absent
(environment consulted under the translated name). -/
theorem detect_tags_over_env_witness :
    List.lookup "ForgeRegion" [("ForgeRegion", "eu-west-1")] = some "eu-west-1" ∧
    (detect [("ForgeRegion", "eu-west-1")] (fun _ => some "x") "ForgeRegion" =
        some "eu-west-1" ∧
      detect [("ForgeRegion", "eu-west-1")] (fun _ => none) "ForgeRegion" =
        detect [("ForgeRegion", "eu-west-1")] (fun _ => some "x") "ForgeRegion") ∧
    List.lookup "ForgeRegion" ([] : List (String × String)) = none ∧
    detect [] (fun _ => some "y") "ForgeRegion" = some "y" ∧
    shell_style "ForgeRegion" = "FORGE_REGION" :=
  ⟨rfl,
   (detect_tags_over_env [("ForgeRegion", "eu-west-1")] (fun _ => some "x")
     (fun _ => none) "ForgeRegion" "eu-west-1").1 rfl,
   rfl,
   (detect_tags_over_env [] (fun _ => some "y") (fun _ => some "y")
     "ForgeRegion" "z").2.1 rfl,
   (detect_tags_over_env [] (fun _ => some "y") (fun _ => some "y")
     "ForgeRegion" "z").2.2⟩

end Forge
